import Mathlib

/-!
Formal model of the command-and-result relay implemented in
`app/websocket/server.py` and `app/api/routes.py`: the connection registry
(`browser_clients`), the result store (`command_results`), the dispatcher
(`send_to_browser`), the polling correlation wait in the HTTP routes, the
periodic screenshot scheduler, and the per-connection screenshot history.
Python dictionaries are modelled as association lists preserving insertion
order; the single-threaded asyncio scheduling model makes each of the
modelled operations atomic between suspension points.
-/

namespace EdtechAgents

/- ### Decimal rendering of naturals

Connection ids and command ids are Python f-strings embedding integers,
which Lean renders with `Nat.repr`.  Injectivity of `Nat.repr` is proved
below so that distinct counters yield distinct id strings. -/

/-- Structural rendition of the base-10 digit list of `n`, most significant
digit first, mirroring `Nat.toDigits 10`. -/
def decDigits (n : Nat) : List Char :=
  if n < 10 then [Nat.digitChar n]
  else decDigits (n / 10) ++ [Nat.digitChar (n % 10)]
termination_by n
decreasing_by exact Nat.div_lt_self (by omega) (by omega)

/-- Value of a decimal digit string, reading left to right. -/
def decVal (cs : List Char) : Nat :=
  cs.foldl (fun acc c => acc * 10 + (c.toNat - 48)) 0

/- ### Python dictionaries as association lists

`browser_clients` and `screenshot_history` are Python dicts; assignment
replaces the value of an existing key in place and appends a fresh key at
the end (insertion order), `del` removes the entry, iteration and lookup
follow insertion order. -/

/-- Dict assignment `d[k] = v`: replace in place when the key exists,
append otherwise. -/
def dictSet {κ ν : Type} [DecidableEq κ] : List (κ × ν) → κ → ν → List (κ × ν)
  | [], k, v => [(k, v)]
  | p :: d, k, v => if p.1 = k then (k, v) :: d else p :: dictSet d k v

/-- Dict lookup `d[k]` returning `none` for a missing key. -/
def dictGet {κ ν : Type} [DecidableEq κ] : List (κ × ν) → κ → Option ν
  | [], _ => none
  | p :: d, k => if p.1 = k then some p.2 else dictGet d k

/-- Dict deletion `del d[k]`. -/
def dictDel {κ ν : Type} [DecidableEq κ] : List (κ × ν) → κ → List (κ × ν)
  | [], _ => []
  | p :: d, k => if p.1 = k then d else p :: dictDel d k

/- ### Data model -/

/-- Value stored for a connection in the `browser_clients` dict
(`server.py`): the id assigned at accept time and the mutable human
name, initially `"Unknown"`. -/
structure ClientInfo where
  id : String
  name : String
deriving DecidableEq, Repr

/-- Handle of one live websocket connection (the Python `websocket`
object used as the dict key). -/
abbrev Conn := Nat

/-- One entry of the per-connection screenshot history
(the `screenshot_info` dict built in `save_screenshot`). -/
structure ScreenshotRecord where
  filename : String
  filepath : String
  timestamp : String
  datetimeIso : String
  client_id : String
  client_name : String
  shotType : String
deriving DecidableEq, Repr

/-- Connection id `f"browser_{n}"` assigned by `handle_browser_client`. -/
def mkClientId (n : Nat) : String := "browser_" ++ Nat.repr n

/-- Module-level state touched by connect and disconnect in `server.py`:
the `browser_clients` dict keyed by websocket and the `screenshot_history`
dict keyed by client id. -/
structure ServerState where
  browser_clients : List (Conn × ClientInfo)
  screenshot_history : List (String × List ScreenshotRecord)
deriving DecidableEq, Repr

/-- State at process start: both dicts empty. -/
def initialState : ServerState := { browser_clients := [], screenshot_history := [] }

/-- Connection accept in `handle_browser_client` (`server.py` lines 30-38):
computes `client_id = f"browser_{len(browser_clients) + 1}"`, registers the
websocket with name `"Unknown"`, and unconditionally resets
`screenshot_history[client_id]` to the empty list. -/
def handle_connect (st : ServerState) (ws : Conn) : ServerState :=
  let client_id := mkClientId (st.browser_clients.length + 1)
  { browser_clients := dictSet st.browser_clients ws ⟨client_id, "Unknown"⟩,
    screenshot_history := dictSet st.screenshot_history client_id [] }

/-- The `finally` block of `handle_browser_client` (`server.py` lines 94-96):
`del browser_clients[websocket]` and nothing else; in particular the
screenshot history entry is left in place. -/
def handle_disconnect (st : ServerState) (ws : Conn) : ServerState :=
  { st with browser_clients := dictDel st.browser_clients ws }

/-- Registry after `n` connection accepts (connections `ws 0, ws 1, ...`)
with no intervening disconnects, starting from the initial state. -/
def connectRun (ws : Nat → Conn) : Nat → ServerState
  | 0 => initialState
  | n + 1 => handle_connect (connectRun ws n) (ws n)

/-- State after the event sequence: connection 1 connects, connection 2
connects, connection 1 disconnects, connection 3 connects. -/
def c3state : ServerState :=
  handle_connect (handle_disconnect (handle_connect (handle_connect initialState 1) 2) 1) 3

/- ### Result store

`command_results` is a dict from command id to the raw result message;
`routes.py` consumes entries with `command_results.pop(command_id)` guarded
by a membership test.  The store is modelled extensionally as a map. -/

/-- Result store: a transient mapping from command id to result. -/
def Store (α : Type) : Type := String → Option α

/-- Write `command_results[command_id] = data` (`server.py` line 63):
an idempotent overwrite. -/
def Store.put {α : Type} (s : Store α) (cid : String) (r : α) : Store α :=
  fun k => if k = cid then some r else s k

/-- One waiter poll (`routes.py`): `if command_id in command_results:
return command_results.pop(command_id)` — an atomic read-and-remove
returning `none` when the id is absent. -/
def Store.take {α : Type} (s : Store α) (cid : String) : Option α × Store α :=
  match s cid with
  | some r => (some r, fun k => if k = cid then none else s k)
  | none => (none, s)

/- ### Dispatcher -/

/-- Outcome of a call to `send_to_browser`: an ordinary return value, or a
propagated exception (the call raises). -/
inductive DispatchOutcome where
  | ok (success : Bool)
  | exn
deriving DecidableEq, Repr

/-- Result of a dispatch: its outcome together with the connections whose
`websocket.send` completed. -/
structure DispatchResult where
  outcome : DispatchOutcome
  sent : List Conn
deriving DecidableEq, Repr

/-- Target resolution predicate of `send_to_browser`
(`target_client == info['name'] or target_client == info['id']`). -/
def matchesTarget (t : String) (p : Conn × ClientInfo) : Bool :=
  t == p.2.name || t == p.2.id

/-- Model of `send_to_browser` (`server.py` lines 173-212).  `sendRaises c`
says whether `c.send(...)` raises for this call.  Empty registry: return
`False` at once.  Broadcast (`target_client is None`): the command is JSON
serialized once and sent to every registered connection via
`asyncio.gather` with default `return_exceptions=False`; every send
coroutine is started and the non-raising ones complete, but the first
raised exception propagates out of the `await`, so the function only
reaches `return True` when no send raises.  Named target: linear scan in
insertion order for the first connection whose name or id equals the
target; send to exactly that connection on a hit, `return False` on a
miss. -/
def send_to_browser (clients : List (Conn × ClientInfo)) (sendRaises : Conn → Bool)
    (target_client : Option String) : DispatchResult :=
  if clients.isEmpty then ⟨.ok false, []⟩
  else
    match target_client with
    | none =>
        let delivered := (clients.map Prod.fst).filter (fun c => !(sendRaises c))
        if (clients.map Prod.fst).any sendRaises then ⟨.exn, delivered⟩
        else ⟨.ok true, delivered⟩
    | some t =>
        match clients.find? (matchesTarget t) with
        | some p => if sendRaises p.1 then ⟨.exn, []⟩ else ⟨.ok true, [p.1]⟩
        | none => ⟨.ok false, []⟩

/-- Dispatch step seen together with the result store: `send_to_browser`
contains no reference to `command_results`, and the HTTP routes write
nothing into the store between the dispatch and the poll loop, so the
store component passes through unchanged. -/
def dispatch_step {α : Type} (clients : List (Conn × ClientInfo)) (sendRaises : Conn → Bool)
    (target_client : Option String) (results : Store α) : DispatchResult × Store α :=
  (send_to_browser clients sendRaises target_client, results)

/-- Three-connection registry used for the broadcast scenario. -/
def bReg : List (Conn × ClientInfo) :=
  [(1, ⟨"browser_1", "A"⟩), (2, ⟨"browser_2", "B"⟩), (3, ⟨"browser_3", "C"⟩)]

/-- Send oracle where exactly connection 2 raises. -/
def bRaises : Conn → Bool := fun c => c == 2

/- ### Correlation waiter

Each command route runs `for _ in range(attempts): if command_id in
command_results: return command_results.pop(command_id); await
asyncio.sleep(0.1)` and raises 504 after the loop.  `polls k` is the store
content for the awaited id observed at the k-th poll. -/

/-- Poll loop returning the result found, if any, together with the number
of polls performed. -/
def pollWait {α : Type} : (Nat → Option α) → Nat → Option α × Nat
  | _, 0 => (none, 0)
  | polls, n + 1 =>
    match polls 0 with
    | some r => (some r, 1)
    | none =>
      let rest := pollWait (fun k => polls (k + 1)) n
      (rest.1, rest.2 + 1)

/-- Poll interval `asyncio.sleep(0.1)` in milliseconds. -/
def poll_interval_ms : Nat := 100

/-- Attempt bound of the `/navigate` route (`range(30)`). -/
def navigate_attempts : Nat := 30

/-- Attempt bound of the `/launch-activity` route (`range(30)`). -/
def launch_activity_attempts : Nat := 30

/-- Attempt bound of the `/screenshot` route (`range(50)`). -/
def screenshot_attempts : Nat := 50

/-- Attempt bound of the `/content` route (`range(50)`). -/
def content_attempts : Nat := 50

/- ### Periodic capture scheduler

Global state in `server.py`: `periodic_screenshot_task` (the task holding
the running loop, `None` when stopped) and `SCREENSHOT_INTERVAL`
(process-wide default, initially 60).  `orphans` records loops that would
still be running although no longer referenced by the task variable;
`start_periodic_screenshots` cancels the referenced task before
reassigning, so no orphan is ever produced. -/

/-- Scheduler state: the interval of the task currently referenced by
`periodic_screenshot_task` (if any), intervals of unreferenced loops that
are still running, and the global `SCREENSHOT_INTERVAL`. -/
structure Scheduler where
  task : Option Nat
  orphans : List Nat
  screenshot_interval : Nat
deriving DecidableEq, Repr

/-- All loops currently running, referenced or not. -/
def Scheduler.activeLoops (st : Scheduler) : List Nat := st.orphans ++ st.task.toList

/-- Reassignment `periodic_screenshot_task = asyncio.create_task(...)`:
a still-referenced uncancelled task would keep running as an orphan. -/
def assignNewTask (st : Scheduler) (eff : Nat) : Scheduler :=
  { st with orphans := st.orphans ++ st.task.toList, task := some eff }

/-- Cancellation `periodic_screenshot_task.cancel()`: the referenced loop
stops running. -/
def cancelTask (st : Scheduler) : Scheduler := { st with task := none }

/-- Model of `start_periodic_screenshots(interval=None)` (`server.py`
lines 214-234): `screenshot_interval = interval or SCREENSHOT_INTERVAL`
(Python falsiness: an explicit 0 falls back to the global), the global is
updated whenever `interval is not None`, a running task is cancelled, and
a fresh loop task is created and stored. -/
def start_periodic_screenshots (st : Scheduler) (interval : Option Nat) : Scheduler :=
  let eff := match interval with
    | some i => if i = 0 then st.screenshot_interval else i
    | none => st.screenshot_interval
  let st1 := match interval with
    | some i => { st with screenshot_interval := i }
    | none => st
  let st2 := match st1.task with
    | some _ => cancelTask st1
    | none => st1
  assignNewTask st2 eff

/-- Model of `stop_periodic_screenshots()` (`server.py` lines 236-245):
cancel and clear the task returning `True` when one was running, plain
`False` otherwise. -/
def stop_periodic_screenshots (st : Scheduler) : Bool × Scheduler :=
  match st.task with
  | some _ => (true, { st with task := none })
  | none => (false, st)

/- ### Screenshot history bound -/

/-- History update in `save_screenshot` (`server.py` lines 154-158):
append the record, then `if len(h) > 50: h = h[-50:]`. -/
def save_screenshot_history_step {α : Type} (hist : List α) (info : α) : List α :=
  if 50 < (hist ++ [info]).length then (hist ++ [info]).drop ((hist ++ [info]).length - 50)
  else hist ++ [info]

/- ### HTTP command ids

Each command route builds its id as a purpose tag followed by
`datetime.now().strftime('%Y%m%d%H%M%S')` — wall clock at one-second
granularity, zero padded. -/

/-- Wall-clock time at the granularity visible to `'%Y%m%d%H%M%S'`. -/
structure Timestamp where
  year : Nat
  month : Nat
  day : Nat
  hour : Nat
  minute : Nat
  second : Nat
deriving DecidableEq, Repr

/-- Zero-pad to two digits (`%m`, `%d`, `%H`, `%M`, `%S`). -/
def pad2 (n : Nat) : String := if n < 10 then "0" ++ Nat.repr n else Nat.repr n

/-- Zero-pad to four digits (`%Y`). -/
def pad4 (n : Nat) : String :=
  if n < 10 then "000" ++ Nat.repr n
  else if n < 100 then "00" ++ Nat.repr n
  else if n < 1000 then "0" ++ Nat.repr n
  else Nat.repr n

/-- Rendering of `strftime('%Y%m%d%H%M%S')`. -/
def strftimeYmdHMS (t : Timestamp) : String :=
  pad4 t.year ++ pad2 t.month ++ pad2 t.day ++ pad2 t.hour ++ pad2 t.minute ++ pad2 t.second

/-- The four command endpoints of `routes.py` that generate ids. -/
inductive Endpoint where
  | navigate
  | screenshot
  | content
  | launch_activity
deriving DecidableEq, Repr

/-- Purpose tag prepended to the formatted timestamp by each route. -/
def purposeTag : Endpoint → String
  | .navigate => "nav_"
  | .screenshot => "ss_"
  | .content => "content_"
  | .launch_activity => "launch_"

/-- Command id generated by a route at dispatch time `t`. -/
def routeCommandId (e : Endpoint) (t : Timestamp) : String :=
  purposeTag e ++ strftimeYmdHMS t

/-- Ids generated by a sequence of dispatch events. -/
def dispatchIds (trace : List (Endpoint × Timestamp)) : List String :=
  trace.map (fun p => routeCommandId p.1 p.2)

/-- Dispatch timestamp used in concrete scenarios. -/
def exTs : Timestamp := ⟨2026, 10, 12, 12, 0, 0⟩

/- ### Supporting lemmas -/

theorem toDigitsCore_eq (fuel : Nat) : ∀ (n : Nat) (ds : List Char), n < fuel →
    Nat.toDigitsCore 10 fuel n ds = decDigits n ++ ds := by
  induction fuel with
  | zero => intro n ds h; omega
  | succ m ih =>
    intro n ds h
    rw [Nat.toDigitsCore]
    by_cases h10 : n < 10
    · have hz : n / 10 = 0 := Nat.div_eq_of_lt h10
      simp only [hz, if_pos rfl]
      rw [decDigits]
      have hm : n % 10 = n := Nat.mod_eq_of_lt h10
      simp [h10, hm]
    · have hz : ¬ (n / 10 = 0) := by
        intro hc
        have h2 : n < 10 := by
          have := (Nat.div_eq_zero_iff (by omega : 0 < 10)).mp hc
          omega
        omega
      rw [if_neg hz]
      have hlt : n / 10 < m := by
        have := Nat.div_lt_self (by omega : 0 < n) (by omega : 1 < 10)
        omega
      rw [ih (n / 10) _ hlt]
      conv_rhs => rw [decDigits]
      rw [if_neg h10]
      simp

theorem toDigits_eq_decDigits (n : Nat) : Nat.toDigits 10 n = decDigits n :=
  (toDigitsCore_eq (n + 1) n [] (Nat.lt_succ_self n)).trans (List.append_nil _)

theorem digitChar_val (d : Nat) (h : d < 10) : (Nat.digitChar d).toNat - 48 = d := by
  interval_cases d <;> decide

theorem decVal_append (cs : List Char) (c : Char) :
    decVal (cs ++ [c]) = decVal cs * 10 + (c.toNat - 48) := by
  unfold decVal
  rw [List.foldl_append]
  rfl

theorem decVal_decDigits (n : Nat) : decVal (decDigits n) = n := by
  induction n using Nat.strong_induction_on with
  | _ n ih =>
    rw [decDigits]
    by_cases h10 : n < 10
    · rw [if_pos h10]
      show decVal [Nat.digitChar n] = n
      unfold decVal
      simp [List.foldl, digitChar_val n h10]
    · rw [if_neg h10]
      rw [decVal_append]
      rw [ih (n / 10) (Nat.div_lt_self (by omega) (by omega))]
      rw [digitChar_val (n % 10) (Nat.mod_lt n (by omega))]
      omega

theorem repr_injective : Function.Injective Nat.repr := by
  intro a b h
  have hd : Nat.toDigits 10 a = Nat.toDigits 10 b := by
    have h2 := congrArg String.data h
    simpa [Nat.repr] using h2
  have h3 : decDigits a = decDigits b := by
    rw [← toDigits_eq_decDigits, ← toDigits_eq_decDigits]; exact hd
  have h4 := congrArg decVal h3
  rwa [decVal_decDigits, decVal_decDigits] at h4

/-- Strings built by appending to distinct first characters are distinct. -/
theorem append_ne_of_head_ne {x y p q : String} {c d : Char}
    (hp : (p.data ++ x.data).head? = some c) (hq : (q.data ++ y.data).head? = some d)
    (hcd : c ≠ d) : p ++ x ≠ q ++ y := by
  intro h
  have hd : p.data ++ x.data = q.data ++ y.data := by
    have h2 := congrArg String.data h
    rwa [String.data_append, String.data_append] at h2
  rw [hd] at hp
  rw [hp] at hq
  exact hcd (Option.some.inj hq)

theorem dictGet_dictSet_self {κ ν : Type} [DecidableEq κ] :
    ∀ (d : List (κ × ν)) (k : κ) (v : ν), dictGet (dictSet d k v) k = some v := by
  intro d k v
  induction d with
  | nil => simp [dictSet, dictGet]
  | cons p d ih =>
    by_cases h : p.1 = k
    · simp [dictSet, if_pos h, dictGet]
    · simp only [dictSet, if_neg h, dictGet]
      exact ih

theorem dictGet_dictSet_ne {κ ν : Type} [DecidableEq κ] :
    ∀ (d : List (κ × ν)) (k k' : κ) (v : ν), k' ≠ k →
      dictGet (dictSet d k v) k' = dictGet d k' := by
  intro d k k' v hne
  induction d with
  | nil => simp [dictSet, dictGet, Ne.symm hne]
  | cons p d ih =>
    by_cases h : p.1 = k
    · simp only [dictSet, if_pos h, dictGet]
      rw [if_neg (fun hc : k = k' => hne hc.symm),
        if_neg (fun hc : p.1 = k' => hne (hc.symm.trans h))]
    · simp only [dictSet, if_neg h, dictGet]
      by_cases h2 : p.1 = k'
      · rw [if_pos h2, if_pos h2]
      · rw [if_neg h2, if_neg h2]
        exact ih

theorem dictSet_of_fresh {κ ν : Type} [DecidableEq κ] :
    ∀ (d : List (κ × ν)) (k : κ) (v : ν), (∀ p ∈ d, p.1 ≠ k) →
      dictSet d k v = d ++ [(k, v)] := by
  intro d k v h
  induction d with
  | nil => rfl
  | cons p d ih =>
    have hp : p.1 ≠ k := h p (List.mem_cons_self p d)
    simp only [dictSet, if_neg hp, List.cons_append]
    rw [ih (fun q hq => h q (List.mem_cons_of_mem p hq))]

theorem mkClientId_injective : Function.Injective mkClientId := by
  intro a b h
  simp only [mkClientId] at h
  have hd := congrArg String.data h
  rw [String.data_append, String.data_append] at hd
  have h2 := List.append_cancel_left hd
  exact repr_injective (String.ext h2)

theorem handle_connect_clients (st : ServerState) (ws : Conn) :
    (handle_connect st ws).browser_clients
      = dictSet st.browser_clients ws
          ⟨mkClientId (st.browser_clients.length + 1), "Unknown"⟩ := rfl

theorem handle_connect_history (st : ServerState) (ws : Conn) :
    (handle_connect st ws).screenshot_history
      = dictSet st.screenshot_history (mkClientId (st.browser_clients.length + 1)) [] := rfl

/-- Registry contents after a disconnect-free run of distinct connections. -/
theorem connectRun_registry (ws : Nat → Conn) (hws : Function.Injective ws) :
    ∀ n, (connectRun ws n).browser_clients
      = (List.range n).map (fun i => (ws i, ⟨mkClientId (i + 1), "Unknown"⟩)) := by
  intro n
  induction n with
  | zero => rfl
  | succ n ih =>
    show (handle_connect (connectRun ws n) (ws n)).browser_clients = _
    rw [handle_connect_clients, ih]
    simp only [List.length_map, List.length_range]
    rw [dictSet_of_fresh]
    · rw [List.range_succ, List.map_append]
      rfl
    · intro p hp
      obtain ⟨i, hi, rfl⟩ := List.mem_map.mp hp
      have hlt : i < n := List.mem_range.mp hi
      intro hc
      have h2 := hws hc
      omega

theorem pollWait_none {α : Type} : ∀ (n : Nat) (polls : Nat → Option α),
    (∀ k, k < n → polls k = none) → pollWait polls n = (none, n) := by
  intro n
  induction n with
  | zero => intro polls _; rfl
  | succ m ih =>
    intro polls h
    have h0 : polls 0 = none := h 0 (Nat.succ_pos m)
    simp only [pollWait, h0]
    rw [ih (fun k => polls (k + 1)) (fun k hk => h (k + 1) (by omega))]

theorem pollWait_found {α : Type} : ∀ (j : Nat) (n : Nat) (polls : Nat → Option α) (r : α),
    j < n → polls j = some r → (∀ k, k < j → polls k = none) →
    pollWait polls n = (some r, j + 1) := by
  intro j
  induction j with
  | zero =>
    intro n polls r hn h0 _
    match n, hn with
    | m + 1, _ => simp only [pollWait, h0]
  | succ j ih =>
    intro n polls r hn hj hnone
    match n, hn with
    | m + 1, hn =>
      have h0 : polls 0 = none := hnone 0 (Nat.succ_pos j)
      simp only [pollWait, h0]
      rw [ih m (fun k => polls (k + 1)) r (by omega) hj (fun k hk => hnone (k + 1) (by omega))]

/-- One history update maps the most-recent-50 suffix of the log to the
most-recent-50 suffix of the extended log. -/
theorem historyStep_lastN {α : Type} (l : List α) (x : α) :
    save_screenshot_history_step (l.drop (l.length - 50)) x
      = (l ++ [x]).drop ((l ++ [x]).length - 50) := by
  unfold save_screenshot_history_step
  have hlen : (l ++ [x]).length = l.length + 1 := by
    rw [List.length_append, List.length_singleton]
  by_cases hl : l.length < 50
  · have h0 : l.length - 50 = 0 := by omega
    rw [h0, List.drop_zero]
    rw [if_neg (by rw [hlen]; omega)]
    have h2 : (l ++ [x]).length - 50 = 0 := by rw [hlen]; omega
    rw [h2, List.drop_zero]
  · have hdlen : (l.drop (l.length - 50)).length = 50 := by
      rw [List.length_drop]; omega
    have hcond : 50 < (l.drop (l.length - 50) ++ [x]).length := by
      simp [hdlen]
    rw [if_pos hcond]
    have harg : (l.drop (l.length - 50) ++ [x]).length - 50 = 1 := by
      simp [hdlen]
    rw [harg]
    rw [List.drop_append_of_le_length (by omega)]
    rw [List.drop_drop]
    have hR : (l ++ [x]).length - 50 = l.length - 49 := by
      rw [hlen]; omega
    rw [hR, List.drop_append_of_le_length (by omega : l.length - 49 ≤ l.length)]
    have hidx : l.length - 50 + 1 = l.length - 49 := by omega
    rw [hidx]

/-- Folding history updates keeps exactly the most recent 50 records. -/
theorem foldl_history_lastN {α : Type} :
    ∀ (xs l : List α),
      List.foldl save_screenshot_history_step (l.drop (l.length - 50)) xs
        = (l ++ xs).drop ((l ++ xs).length - 50) := by
  intro xs
  induction xs with
  | nil => intro l; simp
  | cons x xs ih =>
    intro l
    rw [List.foldl_cons, historyStep_lastN l x, ih (l ++ [x])]
    simp

theorem routeCommandId_ne_of_endpoint_ne (e e' : Endpoint) (t t' : Timestamp)
    (he : e ≠ e') : routeCommandId e t ≠ routeCommandId e' t' := by
  simp only [routeCommandId]
  cases e <;> cases e' <;>
    first
      | exact absurd rfl he
      | exact append_ne_of_head_ne rfl rfl (by decide)

/- ### Claims -/

/-- C1: a result written to the store under a command id is received exactly
as written by the first poll that finds it, the entry is removed in the same
step, a repeated poll (or a second waiter) for the same id then observes
nothing, and entries under other ids are untouched. -/
theorem C1_result_store_pop_once {α : Type} (s : Store α) (cid : String) (r : α) :
    (Store.take (Store.put s cid r) cid).1 = some r ∧
    (Store.take (Store.put s cid r) cid).2 cid = none ∧
    (Store.take ((Store.take (Store.put s cid r) cid).2) cid).1 = none ∧
    (∀ k, k ≠ cid → (Store.take (Store.put s cid r) cid).2 k = Store.put s cid r k) := by
  refine ⟨?_, ?_, ?_, ?_⟩
  · simp [Store.put, Store.take]
  · simp [Store.put, Store.take]
  · simp [Store.put, Store.take]
  · intro k hk
    simp [Store.put, Store.take, hk]

/-- C1 witness at a concrete store, id and unrelated key. -/
theorem C1_result_store_pop_once_witness :
    ("ss_x" : String) ≠ "nav_1" ∧
    (Store.take (Store.put (fun _ => (none : Option Nat)) "nav_1" 5) "nav_1").2 "ss_x"
      = Store.put (fun _ => (none : Option Nat)) "nav_1" 5 "ss_x" :=
  ⟨by decide,
   (C1_result_store_pop_once (fun _ => (none : Option Nat)) "nav_1" 5).2.2.2 "ss_x" (by decide)⟩

/-- C2 counterexample: broadcasting to three connections where one send
raises does not report success — the exception escapes `asyncio.gather`
and `send_to_browser` raises instead of returning `True`; the other two
connections are still delivered to. -/
theorem C2_broadcast_counterexample :
    (send_to_browser bReg bRaises none).outcome ≠ DispatchOutcome.ok true ∧
    send_to_browser bReg bRaises none = ⟨DispatchOutcome.exn, [1, 3]⟩ := by
  decide

/-- C2 (amended): a broadcast over a non-empty registry returns success
with every connection delivered to when no send raises; when some send
raises, every send is still started and the non-raising connections are
delivered to, but the per-connection failure is surfaced — the dispatch
raises rather than returning success. -/
theorem C2_broadcast_send_failure_propagates (clients : List (Conn × ClientInfo))
    (sendRaises : Conn → Bool) (hne : clients ≠ []) :
    ((∀ p ∈ clients, sendRaises p.1 = false) →
      send_to_browser clients sendRaises none
        = ⟨DispatchOutcome.ok true, clients.map Prod.fst⟩) ∧
    ((∃ p ∈ clients, sendRaises p.1 = true) →
      (send_to_browser clients sendRaises none).outcome = DispatchOutcome.exn ∧
      (send_to_browser clients sendRaises none).sent
        = (clients.map Prod.fst).filter (fun c => !(sendRaises c))) := by
  have hemp : clients.isEmpty = false := by
    cases clients with
    | nil => exact absurd rfl hne
    | cons a as => rfl
  constructor
  · intro hall
    have hany : (clients.map Prod.fst).any sendRaises = false := by
      rw [List.any_eq_false]
      intro c hc
      obtain ⟨p, hp, rfl⟩ := List.mem_map.mp hc
      simp [hall p hp]
    have hfil : (clients.map Prod.fst).filter (fun c => !(sendRaises c))
        = clients.map Prod.fst := by
      rw [List.filter_eq_self]
      intro c hc
      obtain ⟨p, hp, rfl⟩ := List.mem_map.mp hc
      simp [hall p hp]
    simp [send_to_browser, hemp, hany, hfil]
  · intro hex
    have hany : (clients.map Prod.fst).any sendRaises = true := by
      rw [List.any_eq_true]
      obtain ⟨p, hp, hr⟩ := hex
      exact ⟨p.1, List.mem_map.mpr ⟨p, hp, rfl⟩, hr⟩
    constructor
    · simp [send_to_browser, hemp, hany]
    · simp [send_to_browser, hemp, hany]

/-- C2 witness: the all-succeed broadcast on the concrete registry
delivers to all three connections, and the one-raising broadcast raises. -/
theorem C2_broadcast_send_failure_propagates_witness :
    send_to_browser bReg (fun _ => false) none
      = ⟨DispatchOutcome.ok true, [1, 2, 3]⟩ ∧
    (send_to_browser bReg bRaises none).outcome = DispatchOutcome.exn :=
  ⟨(C2_broadcast_send_failure_propagates bReg (fun _ => false) (by decide)).1
      (fun _ _ => rfl),
   ((C2_broadcast_send_failure_propagates bReg bRaises (by decide)).2
      ⟨(2, ⟨"browser_2", "B"⟩), by decide, rfl⟩).1⟩

/-- C3 counterexample: after connect 1, connect 2, disconnect 1, connect 3,
the third connection ever is assigned `browser_2` (not `browser_3`), and
the two simultaneously registered connections 2 and 3 hold the same id. -/
theorem C3_id_reuse_counterexample :
    c3state.browser_clients.map Prod.fst = [2, 3] ∧
    c3state.browser_clients.map (fun p => p.2.id) = ["browser_2", "browser_2"] ∧
    ¬ (c3state.browser_clients.map (fun p => p.2.id)).Nodup := by
  decide

/-- C3 (amended): the id assigned at connect time is `browser_(k+1)` where
`k` is the registry size at that instant; hence in any run of
registrations of distinct connections with no deregistration, the n-th
connection to register is assigned `browser_n` and all simultaneously
registered connections hold pairwise distinct ids.  (After a
deregistration the size-based counter can reassign an id still held by a
live connection.) -/
theorem C3_sequential_ids_without_disconnects (ws : Nat → Conn)
    (hws : Function.Injective ws) (n : Nat) :
    (connectRun ws n).browser_clients
      = (List.range n).map (fun i => (ws i, ⟨mkClientId (i + 1), "Unknown"⟩)) ∧
    ((connectRun ws n).browser_clients.map (fun p => p.2.id)).Nodup := by
  refine ⟨connectRun_registry ws hws n, ?_⟩
  rw [connectRun_registry ws hws n, List.map_map]
  have hinj : Function.Injective
      ((fun p : Conn × ClientInfo => p.2.id)
        ∘ (fun i => (ws i, (⟨mkClientId (i + 1), "Unknown"⟩ : ClientInfo)))) := by
    intro a b hab
    have h2 : mkClientId (a + 1) = mkClientId (b + 1) := hab
    have h3 := mkClientId_injective h2
    omega
  exact List.Nodup.map hinj (List.nodup_range n)

/-- C3 witness: a disconnect-free run of three distinct connections. -/
theorem C3_sequential_ids_without_disconnects_witness :
    (connectRun (fun i => i) 3).browser_clients
      = (List.range 3).map (fun i => (i, ⟨mkClientId (i + 1), "Unknown"⟩)) ∧
    ((connectRun (fun i => i) 3).browser_clients.map (fun p => p.2.id)).Nodup :=
  C3_sequential_ids_without_disconnects (fun i => i) (fun _ _ h => h) 3

/-- C4 counterexample: two navigate dispatches issued in the same wall-clock
second receive the same command id — ids are not distinct across distinct
dispatches. -/
theorem C4_same_second_collision :
    dispatchIds [(Endpoint.navigate, exTs), (Endpoint.navigate, exTs)]
      = ["nav_20261012120000", "nav_20261012120000"] ∧
    ¬ (dispatchIds [(Endpoint.navigate, exTs), (Endpoint.navigate, exTs)]).Nodup := by
  decide

/-- C4 (amended): two dispatches through the HTTP surface receive distinct
purpose-prefixed command ids whenever their endpoints differ or their
second-resolution formatted timestamps differ; two same-endpoint
dispatches within the same second collide. -/
theorem C4_distinct_ids_when_tag_or_second_differs (e e' : Endpoint) (t t' : Timestamp)
    (h : e ≠ e' ∨ strftimeYmdHMS t ≠ strftimeYmdHMS t') :
    routeCommandId e t ≠ routeCommandId e' t' := by
  by_cases hee : e = e'
  · subst hee
    rcases h with he | hf
    · exact absurd rfl he
    · intro heq
      apply hf
      have hd := congrArg String.data heq
      simp only [routeCommandId, String.data_append] at hd
      exact String.ext (List.append_cancel_left hd)
  · exact routeCommandId_ne_of_endpoint_ne e e' t t' hee

/-- C4 witness: navigate and screenshot dispatches in the same second get
distinct ids. -/
theorem C4_distinct_ids_witness :
    routeCommandId Endpoint.navigate exTs ≠ routeCommandId Endpoint.screenshot exTs :=
  C4_distinct_ids_when_tag_or_second_differs Endpoint.navigate Endpoint.screenshot exTs exTs
    (Or.inl (by decide))

/-- C5: the correlation wait polls the store once per 100ms interval;
with no result it performs exactly 30 polls for navigate and
launch-activity (3s) and exactly 50 for screenshot and content (5s)
before reporting the timeout condition, and it returns the stored result
on the first successful poll, at any attempt before the bound. -/
theorem C5_poll_wait_timing {α : Type} (polls : Nat → Option α) :
    ((∀ k, polls k = none) →
      pollWait polls navigate_attempts = (none, 30) ∧
      pollWait polls launch_activity_attempts = (none, 30) ∧
      pollWait polls screenshot_attempts = (none, 50) ∧
      pollWait polls content_attempts = (none, 50)) ∧
    (∀ j r, polls j = some r → (∀ k, k < j → polls k = none) →
      (j < navigate_attempts → pollWait polls navigate_attempts = (some r, j + 1)) ∧
      (j < screenshot_attempts → pollWait polls screenshot_attempts = (some r, j + 1))) ∧
    navigate_attempts * poll_interval_ms = 3000 ∧
    launch_activity_attempts = navigate_attempts ∧
    content_attempts = screenshot_attempts ∧
    screenshot_attempts * poll_interval_ms = 5000 := by
  refine ⟨?_, ?_, rfl, rfl, rfl, rfl⟩
  · intro h
    exact ⟨pollWait_none _ polls (fun k _ => h k), pollWait_none _ polls (fun k _ => h k),
      pollWait_none _ polls (fun k _ => h k), pollWait_none _ polls (fun k _ => h k)⟩
  · intro j r hj hnone
    exact ⟨fun hb => pollWait_found j _ polls r hb hj hnone,
      fun hb => pollWait_found j _ polls r hb hj hnone⟩

/-- C5 witness: a store that never holds the result times out after exactly
30 polls on the navigate route, and a result present from the third poll on
is returned at the third poll. -/
theorem C5_poll_wait_timing_witness :
    pollWait (fun _ => (none : Option Nat)) navigate_attempts = (none, 30) ∧
    pollWait (fun k => if k = 2 then some 7 else (none : Option Nat)) navigate_attempts
      = (some 7, 3) :=
  ⟨((C5_poll_wait_timing (fun _ => (none : Option Nat))).1 (fun _ => rfl)).1,
   (((C5_poll_wait_timing (fun k => if k = 2 then some 7 else (none : Option Nat))).2.1
      2 7 rfl (by decide)).1 (by decide))⟩

/-- C6: a dispatch attempted with zero registered connections returns
plain failure (no exception) at once and passes the result store through
unchanged: no pending entry is allocated. -/
theorem C6_dispatch_empty_registry {α : Type} (sendRaises : Conn → Bool)
    (target_client : Option String) (results : Store α) :
    dispatch_step [] sendRaises target_client results
      = (⟨DispatchOutcome.ok false, []⟩, results) := by
  cases target_client <;> rfl

/-- C7: a dispatch to a named target matching no registered connection
returns failure with no message sent to any connection; when the target
resolves, the command is delivered to exactly the first matching
connection. -/
theorem C7_targeted_dispatch (clients : List (Conn × ClientInfo))
    (sendRaises : Conn → Bool) (t : String) :
    (clients.find? (matchesTarget t) = none →
      send_to_browser clients sendRaises (some t) = ⟨DispatchOutcome.ok false, []⟩) ∧
    (∀ p, clients.find? (matchesTarget t) = some p → sendRaises p.1 = false →
      send_to_browser clients sendRaises (some t) = ⟨DispatchOutcome.ok true, [p.1]⟩) := by
  constructor
  · intro hfind
    cases clients with
    | nil => rfl
    | cons a as => simp [send_to_browser, hfind]
  · intro p hfind hok
    cases clients with
    | nil => simp [List.find?] at hfind
    | cons a as => simp [send_to_browser, hfind, hok]

/-- C7 witness on a concrete two-connection registry: an unresolvable
target fails with no send, and a name target delivers to exactly the
matching connection. -/
theorem C7_targeted_dispatch_witness :
    send_to_browser [(1, ⟨"browser_1", "roomA"⟩), (2, ⟨"browser_2", "roomB"⟩)]
      (fun _ => false) (some "nope") = ⟨DispatchOutcome.ok false, []⟩ ∧
    send_to_browser [(1, ⟨"browser_1", "roomA"⟩), (2, ⟨"browser_2", "roomB"⟩)]
      (fun _ => false) (some "roomB") = ⟨DispatchOutcome.ok true, [2]⟩ :=
  ⟨(C7_targeted_dispatch [(1, ⟨"browser_1", "roomA"⟩), (2, ⟨"browser_2", "roomB"⟩)]
      (fun _ => false) "nope").1 (by decide),
   (C7_targeted_dispatch [(1, ⟨"browser_1", "roomA"⟩), (2, ⟨"browser_2", "roomB"⟩)]
      (fun _ => false) "roomB").2 (2, ⟨"browser_2", "roomB"⟩) (by decide) rfl⟩

/-- C8: starting the periodic capture scheduler at interval 5 and then at
interval 10 cancels the first loop and leaves exactly one active loop at
interval 10; the last explicitly supplied interval persists as the global
`SCREENSHOT_INTERVAL`, so a later start with no interval reuses 10; and
stopping an already-stopped scheduler returns `False` (already stopped)
without error and without changing state. -/
theorem C8_scheduler_restart (st : Scheduler) (h : st.orphans = []) :
    (start_periodic_screenshots (start_periodic_screenshots st (some 5)) (some 10)).activeLoops
      = [10] ∧
    (start_periodic_screenshots (start_periodic_screenshots st (some 5)) (some 10)).screenshot_interval
      = 10 ∧
    (start_periodic_screenshots
      (start_periodic_screenshots (start_periodic_screenshots st (some 5)) (some 10))
      none).task = some 10 ∧
    (∀ st2 : Scheduler, st2.task = none →
      stop_periodic_screenshots st2 = (false, st2)) := by
  obtain ⟨tk, orph, si⟩ := st
  simp only at h
  subst h
  refine ⟨?_, ?_, ?_, ?_⟩
  · cases tk <;> rfl
  · cases tk <;> rfl
  · cases tk <;> rfl
  · intro st2 h2
    obtain ⟨tk2, orph2, si2⟩ := st2
    simp only at h2
    subst h2
    rfl

/-- C8 witness at the initial scheduler state (stopped, default interval
60). -/
theorem C8_scheduler_restart_witness :
    (start_periodic_screenshots (start_periodic_screenshots ⟨none, [], 60⟩ (some 5))
      (some 10)).activeLoops = [10] ∧
    stop_periodic_screenshots ⟨none, [], 60⟩ = (false, ⟨none, [], 60⟩) :=
  ⟨(C8_scheduler_restart ⟨none, [], 60⟩ rfl).1,
   (C8_scheduler_restart ⟨none, [], 60⟩ rfl).2.2.2 ⟨none, [], 60⟩ rfl⟩

/-- C9: a connection history built from 55 recorded screenshots retains
exactly the 50 most recent in arrival order — the 5 oldest are evicted. -/
theorem C9_history_retains_last_50 {α : Type} (xs : List α) (h : xs.length = 55) :
    List.foldl save_screenshot_history_step [] xs = xs.drop 5 ∧
    (List.foldl save_screenshot_history_step [] xs).length = 50 := by
  have hbase := foldl_history_lastN xs []
  simp only [List.length_nil, List.drop_nil, List.nil_append] at hbase
  constructor
  · rw [hbase, h]
  · rw [hbase, List.length_drop, h]

/-- C9 witness on a concrete 55-record history. -/
theorem C9_history_retains_last_50_witness :
    List.foldl save_screenshot_history_step ([] : List Nat) (List.range 55)
      = (List.range 55).drop 5 :=
  (C9_history_retains_last_50 (List.range 55) (by simp)).1

/-- C10: a connection accept unconditionally resets the history stored
under the newly assigned id to the empty list; a disconnect leaves the
whole history map in place; and a connect touches no history entry other
than the one under its assigned id — so the history of a disconnected
connection persists until a later connection is assigned the same id,
at which point it is silently erased. -/
theorem C10_connect_resets_history (st : ServerState) (ws : Conn) (k : String) :
    dictGet (handle_connect st ws).screenshot_history
      (mkClientId (st.browser_clients.length + 1)) = some [] ∧
    (handle_disconnect st ws).screenshot_history = st.screenshot_history ∧
    (k ≠ mkClientId (st.browser_clients.length + 1) →
      dictGet (handle_connect st ws).screenshot_history k
        = dictGet st.screenshot_history k) := by
  refine ⟨?_, rfl, ?_⟩
  · rw [handle_connect_history]
    exact dictGet_dictSet_self _ _ _
  · intro hk
    rw [handle_connect_history]
    exact dictGet_dictSet_ne _ _ _ _ hk

/-- C10 witness at the initial state and an unrelated key. -/
theorem C10_connect_resets_history_witness :
    ("other" : String) ≠ mkClientId (initialState.browser_clients.length + 1) ∧
    dictGet (handle_connect initialState 7).screenshot_history "other"
      = dictGet initialState.screenshot_history "other" :=
  ⟨by decide,
   (C10_connect_resets_history initialState 7 "other").2.2 (by decide)⟩

end EdtechAgents
